import Mathlib

/-!
Verification development for the Universal SMB diagnostic tool
(`Universal_SMB_Tool.py`).

The Python source is shallowly embedded as follows:

* Python `str` values are Lean `String`s; `bytes` values are `List Nat`
  with every entry below 256.  `str.encode()` / `bytes.decode()` are
  modelled at the Unicode-scalar level (`strEncode` / `strDecode`): a
  string becomes the list of its code points.  This keeps the
  encode/decode pair an exact inverse, which is also true of UTF-8 on
  valid data.
* `base64.urlsafe_b64encode` / `urlsafe_b64decode` are implemented
  concretely (`urlsafe_b64encode` / `urlsafe_b64decode`), the decoder
  accepting the canonical base64 grammar.
* `json.dumps` of the two-field credential dict, and `json.loads`
  followed by the `['username']` / `['password']` lookups, are
  implemented concretely for the credential payload shape
  (`jsonDumps` / `jsonLoadsCreds`), including Python's `ensure_ascii`
  escaping with surrogate pairs.
* PBKDF2 (RFC 2898) is implemented concretely (`pbkdf2`), parametrised
  by the pseudorandom function `prf` standing for HMAC-SHA256.
* The Fernet cipher from the `cryptography` package is an external
  authenticated-encryption primitive; it is modelled by the `AEScheme`
  structure whose fields state its documented contract (round trip,
  rejection under a different key, nonce-distinct tokens).  A concrete
  instance `toyScheme` witnesses that the contract is satisfiable.
* Process, socket and filesystem effects are modelled by an explicit
  environment `SysEnv`; functions return the list of external commands
  they invoke, and the Linux mount path threads an explicit file-set.
-/

/-! ### Characters and the string/byte model -/

theorem toNat_ofNat_of_valid {n : Nat} (h : n.isValidChar) : (Char.ofNat n).toNat = n := by
  rw [Char.ofNat, dif_pos h]
  rfl

theorem char_toNat_valid (c : Char) : c.toNat.isValidChar := c.valid

theorem char_toNat_lt (c : Char) : c.toNat < 1114112 := by
  rcases c.valid with h | h
  · exact Nat.lt_trans h (by decide)
  · exact h.2

/-- Boolean test for a valid Unicode scalar value. -/
def validCp (n : Nat) : Bool :=
  decide (n < 55296) || (decide (57344 ≤ n) && decide (n < 1114112))

theorem validCp_iff (n : Nat) : validCp n = true ↔ n.isValidChar := by
  simp [validCp, Nat.isValidChar]
  omega

/-- Model of Python `str.encode()`: the list of Unicode scalar values. -/
def strEncode (s : String) : List Nat :=
  s.data.map Char.toNat

/-- Model of Python `bytes.decode()`: succeeds exactly on lists of valid
Unicode scalar values (a `UnicodeDecodeError` is `none`). -/
def strDecode (l : List Nat) : Option String :=
  if l.all validCp then some ⟨l.map Char.ofNat⟩ else none

theorem strDecode_strEncode (s : String) : strDecode (strEncode s) = some s := by
  have hall : (strEncode s).all validCp = true := by
    simp only [strEncode, List.all_eq_true]
    intro x hx
    rcases List.mem_map.1 hx with ⟨c, _, rfl⟩
    exact (validCp_iff _).2 (char_toNat_valid c)
  simp only [strDecode, hall, if_pos]
  have hmap : (strEncode s).map Char.ofNat = s.data := by
    simp only [strEncode, List.map_map]
    calc s.data.map (Char.ofNat ∘ Char.toNat) = s.data.map id := by
          apply List.map_congr_left
          intro c _
          exact Char.ofNat_toNat c
      _ = s.data := List.map_id s.data
  rw [hmap]

/-! ### URL-safe base64 (model of `base64.urlsafe_b64encode`/`..._b64decode`) -/

/-- The URL-safe base64 alphabet, as a function from a 6-bit value. -/
def b64c (n : Nat) : Char :=
  if n < 26 then Char.ofNat (65 + n)
  else if n < 52 then Char.ofNat (97 + (n - 26))
  else if n < 62 then Char.ofNat (48 + (n - 52))
  else if n = 62 then '-'
  else '_'

/-- Inverse of the URL-safe base64 alphabet. -/
def b64v (c : Char) : Option Nat :=
  if 65 ≤ c.toNat ∧ c.toNat ≤ 90 then some (c.toNat - 65)
  else if 97 ≤ c.toNat ∧ c.toNat ≤ 122 then some (c.toNat - 97 + 26)
  else if 48 ≤ c.toNat ∧ c.toNat ≤ 57 then some (c.toNat - 48 + 52)
  else if c = '-' then some 62
  else if c = '_' then some 63
  else none

theorem b64v_b64c : ∀ n < 64, b64v (b64c n) = some n := by decide

theorem b64c_ne_pad : ∀ n < 64, b64c n ≠ '=' := by decide

/-- Base64-encode a byte list (3 bytes to 4 alphabet characters, with
`=` padding). -/
def b64EncodeBytes : List Nat → List Char
  | [] => []
  | [a] => [b64c (a / 4), b64c (a % 4 * 16), '=', '=']
  | [a, b] => [b64c (a / 4), b64c (a % 4 * 16 + b / 16), b64c (b % 16 * 4), '=']
  | a :: b :: c :: rest =>
      b64c (a / 4) :: b64c (a % 4 * 16 + b / 16) :: b64c (b % 16 * 4 + c / 64) ::
        b64c (c % 64) :: b64EncodeBytes rest

/-- Base64-decode a character list; `none` on anything outside the
canonical base64 grammar (Python raises `binascii.Error` there). -/
def b64DecodeChars : List Char → Option (List Nat)
  | [] => some []
  | c1 :: c2 :: c3 :: c4 :: rest =>
      match b64v c1, b64v c2 with
      | some v1, some v2 =>
        if c3 = '=' then
          if c4 = '=' ∧ rest = [] then some [v1 * 4 + v2 / 16] else none
        else
          match b64v c3 with
          | some v3 =>
            if c4 = '=' then
              if rest = [] then some [v1 * 4 + v2 / 16, v2 % 16 * 16 + v3 / 4] else none
            else
              match b64v c4, b64DecodeChars rest with
              | some v4, some bs =>
                  some ((v1 * 4 + v2 / 16) :: (v2 % 16 * 16 + v3 / 4) ::
                    (v3 % 4 * 64 + v4) :: bs)
              | _, _ => none
          | _ => none
      | _, _ => none
  | _ => none

/-- Model of `base64.urlsafe_b64encode(..).decode()`. -/
def urlsafe_b64encode (l : List Nat) : String :=
  ⟨b64EncodeBytes l⟩

/-- Model of `base64.urlsafe_b64decode(s.encode())`. -/
def urlsafe_b64decode (s : String) : Option (List Nat) :=
  b64DecodeChars s.data

theorem b64DecodeChars_b64EncodeBytes (l : List Nat) (h : ∀ b ∈ l, b < 256) :
    b64DecodeChars (b64EncodeBytes l) = some l := by
  induction l using b64EncodeBytes.induct with
  | case1 => rfl
  | case2 a =>
    have ha : a < 256 := h a (by simp)
    have h1 : a / 4 < 64 := by omega
    have h2 : a % 4 * 16 < 64 := by omega
    simp [b64EncodeBytes, b64DecodeChars, b64v_b64c _ h1, b64v_b64c _ h2]
    omega
  | case3 a b =>
    have ha : a < 256 := h a (by simp)
    have hb : b < 256 := h b (by simp)
    have h1 : a / 4 < 64 := by omega
    have h2 : a % 4 * 16 + b / 16 < 64 := by omega
    have h3 : b % 16 * 4 < 64 := by omega
    have e3 : (b64c (b % 16 * 4) = '=') = False := eq_false (b64c_ne_pad _ h3)
    simp [b64EncodeBytes, b64DecodeChars, b64v_b64c _ h1, b64v_b64c _ h2, b64v_b64c _ h3, e3]
    constructor
    · omega
    · omega
  | case4 a b c rest ih =>
    have ha : a < 256 := h a (by simp)
    have hb : b < 256 := h b (by simp)
    have hc : c < 256 := h c (by simp)
    have ih' := ih (fun x hx => h x (by simp [hx]))
    have h1 : a / 4 < 64 := by omega
    have h2 : a % 4 * 16 + b / 16 < 64 := by omega
    have h3 : b % 16 * 4 + c / 64 < 64 := by omega
    have h4 : c % 64 < 64 := by omega
    have e3 : (b64c (b % 16 * 4 + c / 64) = '=') = False := eq_false (b64c_ne_pad _ h3)
    have e4 : (b64c (c % 64) = '=') = False := eq_false (b64c_ne_pad _ h4)
    simp [b64EncodeBytes, b64DecodeChars, b64v_b64c _ h1, b64v_b64c _ h2, b64v_b64c _ h3,
      b64v_b64c _ h4, e3, e4, ih']
    refine ⟨by omega, by omega, by omega⟩

theorem urlsafe_b64decode_encode (l : List Nat) (h : ∀ b ∈ l, b < 256) :
    urlsafe_b64decode (urlsafe_b64encode l) = some l :=
  b64DecodeChars_b64EncodeBytes l h

theorem urlsafe_b64encode_inj {l1 l2 : List Nat} (h1 : ∀ b ∈ l1, b < 256)
    (h2 : ∀ b ∈ l2, b < 256) (h : urlsafe_b64encode l1 = urlsafe_b64encode l2) :
    l1 = l2 := by
  have e1 := urlsafe_b64decode_encode l1 h1
  have e2 := urlsafe_b64decode_encode l2 h2
  rw [h, e2] at e1
  exact (Option.some.injEq _ _ ▸ e1).symm

theorem length_b64EncodeBytes (l : List Nat) :
    (b64EncodeBytes l).length = 4 * ((l.length + 2) / 3) := by
  induction l using b64EncodeBytes.induct with
  | case1 => rfl
  | case2 a => simp [b64EncodeBytes]
  | case3 a b => simp [b64EncodeBytes]
  | case4 a b c rest ih =>
    simp only [b64EncodeBytes, List.length_cons, ih]
    omega

/-! ### JSON for the credential payload (model of `json.dumps`/`json.loads`) -/

/-- Lowercase hexadecimal digit, as emitted by Python's `\uXXXX` escapes. -/
def hexDig (n : Nat) : Char :=
  if n < 10 then Char.ofNat (48 + n) else Char.ofNat (87 + n)

/-- Value of a hexadecimal digit (either case), as accepted by `json.loads`. -/
def hexVal (c : Char) : Option Nat :=
  if 48 ≤ c.toNat ∧ c.toNat ≤ 57 then some (c.toNat - 48)
  else if 97 ≤ c.toNat ∧ c.toNat ≤ 102 then some (c.toNat - 87)
  else if 65 ≤ c.toNat ∧ c.toNat ≤ 70 then some (c.toNat - 55)
  else none

theorem hexVal_hexDig : ∀ n < 16, hexVal (hexDig n) = some n := by decide

/-- Four-digit lowercase hexadecimal rendering (Python `'%04x'`). -/
def hex4 (n : Nat) : List Char :=
  [hexDig (n / 4096 % 16), hexDig (n / 256 % 16), hexDig (n / 16 % 16), hexDig (n % 16)]

/-- Escaping applied by `json.dumps` (default `ensure_ascii=True`) to one
character of a string value: short escapes for the JSON control shorthands,
literal printable ASCII, and `\uXXXX` otherwise, with a surrogate pair for
astral code points. -/
def escChar (c : Char) : List Char :=
  if c = '"' then ['\\', '"']
  else if c = '\\' then ['\\', '\\']
  else if c.toNat = 8 then ['\\', 'b']
  else if c.toNat = 9 then ['\\', 't']
  else if c.toNat = 10 then ['\\', 'n']
  else if c.toNat = 12 then ['\\', 'f']
  else if c.toNat = 13 then ['\\', 'r']
  else if 32 ≤ c.toNat ∧ c.toNat ≤ 126 then [c]
  else if c.toNat < 65536 then '\\' :: 'u' :: hex4 c.toNat
  else
    '\\' :: 'u' :: hex4 (55296 + (c.toNat - 65536) / 1024) ++
      '\\' :: 'u' :: hex4 (56320 + (c.toNat - 65536) % 1024)

/-- JSON rendering of one string value, quotes included. -/
def encJStr (s : String) : List Char :=
  '"' :: s.data.flatMap escChar ++ ['"']

/-- Model of `json.dumps({'username': u, 'password': p})` (insertion
order of the dict and the default `', '` / `': '` separators). -/
def jsonDumps (u p : String) : String :=
  ⟨"\x7b\"username\": ".data ++ encJStr u ++ ", \"password\": ".data ++
    encJStr p ++ "\x7d".data⟩

/-- Single-character JSON escapes accepted after a backslash. -/
def unescChar (e : Char) : Option Char :=
  if e = '"' then some '"'
  else if e = '\\' then some '\\'
  else if e = '/' then some '/'
  else if e = 'b' then some (Char.ofNat 8)
  else if e = 'f' then some (Char.ofNat 12)
  else if e = 'n' then some (Char.ofNat 10)
  else if e = 'r' then some (Char.ofNat 13)
  else if e = 't' then some (Char.ofNat 9)
  else none

/-- Scanner for the characters following a backslash inside a JSON string:
single-character escapes, `\uXXXX` escapes, and surrogate-pair
recombination.  Returns the decoded character and the remainder.  Lone
surrogate escapes, which Python's `str` can hold but a Unicode-scalar
string cannot, are rejected. -/
def scanEsc (l : List Char) : Option (Char × List Char) :=
  match l with
  | [] => none
  | e :: rest2 =>
    if e = 'u' then
      match rest2 with
      | h1 :: h2 :: h3 :: h4 :: rest3 =>
        match hexVal h1, hexVal h2, hexVal h3, hexVal h4 with
        | some a, some b, some d, some e' =>
          let n := a * 4096 + b * 256 + d * 16 + e'
          if 55296 ≤ n ∧ n < 56320 then
            match rest3 with
            | b1 :: u1 :: g1 :: g2 :: g3 :: g4 :: rest4 =>
              if b1 = '\\' ∧ u1 = 'u' then
                match hexVal g1, hexVal g2, hexVal g3, hexVal g4 with
                | some a2, some b2, some d2, some e2 =>
                  let m := a2 * 4096 + b2 * 256 + d2 * 16 + e2
                  if 56320 ≤ m ∧ m < 57344 then
                    some (Char.ofNat (65536 + (n - 55296) * 1024 + (m - 56320)), rest4)
                  else none
                | _, _, _, _ => none
              else none
            | _ => none
          else if 56320 ≤ n ∧ n < 57344 then none
          else some (Char.ofNat n, rest3)
        | _, _, _, _ => none
      | _ => none
    else
      match unescChar e with
      | some c2 => some (c2, rest2)
      | none => none

theorem scanEsc_length : ∀ l c2 r, scanEsc l = some (c2, r) → r.length < l.length := by
  intro l c2 r h
  unfold scanEsc at h
  dsimp only at h
  repeat' split at h
  all_goals simp at h
  all_goals obtain ⟨-, rfl⟩ := h
  all_goals simp
  all_goals omega

theorem scanEsc_len2 (l : List Char) (p : Char × List Char) (h : scanEsc l = some p) :
    p.2.length < l.length := scanEsc_length l p.1 p.2 (by rw [h])

/-- JSON string-body scanner (after the opening quote): returns the decoded
content and the remainder after the closing quote, mirroring the strict
scanner of `json.loads` (raw control characters rejected, escapes decoded
by `scanEsc`). -/
def parseJStringBody : List Char → Option (List Char × List Char)
  | [] => none
  | c :: rest =>
    if c = '"' then some ([], rest)
    else if c = '\\' then
      match h : scanEsc rest with
      | some p => (parseJStringBody p.2).map fun q => (p.1 :: q.1, q.2)
      | none => none
    else if c.toNat < 32 then none
    else (parseJStringBody rest).map fun q => (c :: q.1, q.2)
termination_by l => l.length
decreasing_by
  · have := scanEsc_len2 _ _ h
    simp only [List.length_cons]
    omega
  · simp only [List.length_cons]
    omega

/-- Consume an expected literal character sequence. -/
def expectLit : List Char → List Char → Option (List Char)
  | [], r => some r
  | c :: cs, r =>
    match r with
    | [] => none
    | d :: ds => if d = c then expectLit cs ds else none

/-- Model of `json.loads(s)` followed by the `['username']` and
`['password']` lookups, for the canonical credential-object shape this
program produces; anything else (a `ValueError`, `KeyError` or
`TypeError` in the source) is `none`. -/
def jsonLoadsCreds (s : String) : Option (String × String) :=
  match expectLit ("\x7b\"username\": \"".data) s.data with
  | none => none
  | some r1 =>
    match parseJStringBody r1 with
    | none => none
    | some (u, r2) =>
      match expectLit (", \"password\": \"".data) r2 with
      | none => none
      | some r3 =>
        match parseJStringBody r3 with
        | none => none
        | some (p, r4) => if r4 = ['\x7d'] then some (⟨u⟩, ⟨p⟩) else none

theorem expectLit_append (pre r : List Char) : expectLit pre (pre ++ r) = some r := by
  induction pre with
  | nil => rfl
  | cons c cs ih => simp [expectLit, ih]

theorem pjs_quote (r : List Char) : parseJStringBody ('"' :: r) = some ([], r) := by
  simp [parseJStringBody]

theorem pjs_lit (c : Char) (rest : List Char) (h1 : ¬ c = '"') (h2 : ¬ c = '\\')
    (h3 : ¬ c.toNat < 32) :
    parseJStringBody (c :: rest) = (parseJStringBody rest).map fun q => (c :: q.1, q.2) := by
  rw [parseJStringBody]
  simp [h1, h2, h3]

theorem pjs_esc1 (rest : List Char) (p : Char × List Char) (h : scanEsc rest = some p) :
    parseJStringBody ('\\' :: rest) =
      (parseJStringBody p.2).map fun q => (p.1 :: q.1, q.2) := by
  rw [parseJStringBody]
  rw [if_neg (by decide), if_pos rfl]
  split
  · rename_i p' heq
    rw [h] at heq
    injection heq with hh
    subst hh
    rfl
  · rename_i heq
    rw [h] at heq
    simp at heq

theorem scanEsc_simple (e : Char) (rest : List Char) (hu : ¬ e = 'u') (c2 : Char)
    (hc : unescChar e = some c2) : scanEsc (e :: rest) = some (c2, rest) := by
  simp [scanEsc, hu, hc]

theorem scanEsc_u_bmp (h1 h2 h3 h4 : Char) (rest3 : List Char) (a b d e' : Nat)
    (v1 : hexVal h1 = some a) (v2 : hexVal h2 = some b) (v3 : hexVal h3 = some d)
    (v4 : hexVal h4 = some e')
    (hs1 : ¬ (55296 ≤ a * 4096 + b * 256 + d * 16 + e' ∧
      a * 4096 + b * 256 + d * 16 + e' < 56320))
    (hs2 : ¬ (56320 ≤ a * 4096 + b * 256 + d * 16 + e' ∧
      a * 4096 + b * 256 + d * 16 + e' < 57344)) :
    scanEsc ('u' :: h1 :: h2 :: h3 :: h4 :: rest3) =
      some (Char.ofNat (a * 4096 + b * 256 + d * 16 + e'), rest3) := by
  simp [scanEsc, v1, v2, v3, v4, hs1, hs2]

theorem scanEsc_u_pair (h1 h2 h3 h4 g1 g2 g3 g4 : Char) (rest4 : List Char)
    (a b d e' a2 b2 d2 e2 : Nat)
    (v1 : hexVal h1 = some a) (v2 : hexVal h2 = some b) (v3 : hexVal h3 = some d)
    (v4 : hexVal h4 = some e')
    (w1 : hexVal g1 = some a2) (w2 : hexVal g2 = some b2) (w3 : hexVal g3 = some d2)
    (w4 : hexVal g4 = some e2)
    (hhi : 55296 ≤ a * 4096 + b * 256 + d * 16 + e' ∧
      a * 4096 + b * 256 + d * 16 + e' < 56320)
    (hlo : 56320 ≤ a2 * 4096 + b2 * 256 + d2 * 16 + e2 ∧
      a2 * 4096 + b2 * 256 + d2 * 16 + e2 < 57344) :
    scanEsc ('u' :: h1 :: h2 :: h3 :: h4 ::
        '\\' :: 'u' :: g1 :: g2 :: g3 :: g4 :: rest4) =
      some (Char.ofNat (65536 + (a * 4096 + b * 256 + d * 16 + e' - 55296) * 1024 +
        (a2 * 4096 + b2 * 256 + d2 * 16 + e2 - 56320)), rest4) := by
  simp [scanEsc, v1, v2, v3, v4, w1, w2, w3, w4, hhi, hlo]

theorem parseJStringBody_esc (cs : List Char) (r : List Char) :
    parseJStringBody (cs.flatMap escChar ++ '"' :: r) = some (cs, r) := by
  induction cs with
  | nil => simpa using pjs_quote r
  | cons c cs ih =>
    rw [List.flatMap_cons, List.append_assoc]
    by_cases hq : c = '"'
    · subst hq
      have he : escChar '"' = ['\\', '"'] := by simp [escChar]
      rw [he, List.cons_append, List.cons_append, List.nil_append,
        pjs_esc1 _ _ (scanEsc_simple '"' _ (by decide) '"' (by rfl)), ih]
      rfl
    by_cases hbs : c = '\\'
    · subst hbs
      have he : escChar '\\' = ['\\', '\\'] := by simp [escChar]
      rw [he, List.cons_append, List.cons_append, List.nil_append,
        pjs_esc1 _ _ (scanEsc_simple '\\' _ (by decide) '\\' (by rfl)), ih]
      rfl
    by_cases h8 : c.toNat = 8
    · have hc : c = Char.ofNat 8 := by rw [← h8, Char.ofNat_toNat]
      have he : escChar c = ['\\', 'b'] := by simp [escChar, hq, hbs, h8]
      rw [he, List.cons_append, List.cons_append, List.nil_append,
        pjs_esc1 _ _ (scanEsc_simple 'b' _ (by decide) (Char.ofNat 8) (by rfl)), ih]
      rw [hc]
      rfl
    by_cases h9 : c.toNat = 9
    · have hc : c = Char.ofNat 9 := by rw [← h9, Char.ofNat_toNat]
      have he : escChar c = ['\\', 't'] := by simp [escChar, hq, hbs, h8, h9]
      rw [he, List.cons_append, List.cons_append, List.nil_append,
        pjs_esc1 _ _ (scanEsc_simple 't' _ (by decide) (Char.ofNat 9) (by rfl)), ih]
      rw [hc]
      rfl
    by_cases h10 : c.toNat = 10
    · have hc : c = Char.ofNat 10 := by rw [← h10, Char.ofNat_toNat]
      have he : escChar c = ['\\', 'n'] := by simp [escChar, hq, hbs, h8, h9, h10]
      rw [he, List.cons_append, List.cons_append, List.nil_append,
        pjs_esc1 _ _ (scanEsc_simple 'n' _ (by decide) (Char.ofNat 10) (by rfl)), ih]
      rw [hc]
      rfl
    by_cases h12 : c.toNat = 12
    · have hc : c = Char.ofNat 12 := by rw [← h12, Char.ofNat_toNat]
      have he : escChar c = ['\\', 'f'] := by simp [escChar, hq, hbs, h8, h9, h10, h12]
      rw [he, List.cons_append, List.cons_append, List.nil_append,
        pjs_esc1 _ _ (scanEsc_simple 'f' _ (by decide) (Char.ofNat 12) (by rfl)), ih]
      rw [hc]
      rfl
    by_cases h13 : c.toNat = 13
    · have hc : c = Char.ofNat 13 := by rw [← h13, Char.ofNat_toNat]
      have he : escChar c = ['\\', 'r'] := by simp [escChar, hq, hbs, h8, h9, h10, h12, h13]
      rw [he, List.cons_append, List.cons_append, List.nil_append,
        pjs_esc1 _ _ (scanEsc_simple 'r' _ (by decide) (Char.ofNat 13) (by rfl)), ih]
      rw [hc]
      rfl
    by_cases hpr : 32 ≤ c.toNat ∧ c.toNat ≤ 126
    · have he : escChar c = [c] := by simp [escChar, hq, hbs, h8, h9, h10, h12, h13, hpr]
      rw [he, List.cons_append, List.nil_append,
        pjs_lit c _ hq hbs (by omega), ih]
      rfl
    by_cases hbmp : c.toNat < 65536
    · have hsur : c.toNat < 55296 ∨ 57344 ≤ c.toNat := by
        rcases char_toNat_valid c with h | h
        · exact Or.inl h
        · exact Or.inr (by omega)
      have he : escChar c = '\\' :: 'u' :: hex4 c.toNat := by
        simp [escChar, hq, hbs, h8, h9, h10, h12, h13, hpr, hbmp]
      have d1 : c.toNat / 4096 % 16 < 16 := by omega
      have d2 : c.toNat / 256 % 16 < 16 := by omega
      have d3 : c.toNat / 16 % 16 < 16 := by omega
      have d4 : c.toNat % 16 < 16 := by omega
      have hrec : c.toNat / 4096 % 16 * 4096 + c.toNat / 256 % 16 * 256 +
          c.toNat / 16 % 16 * 16 + c.toNat % 16 = c.toNat := by omega
      rw [he, hex4, List.cons_append, List.cons_append, List.cons_append,
        List.cons_append, List.cons_append, List.cons_append, List.nil_append,
        pjs_esc1 _ _ (scanEsc_u_bmp _ _ _ _ _ _ _ _ _ (hexVal_hexDig _ d1)
          (hexVal_hexDig _ d2) (hexVal_hexDig _ d3) (hexVal_hexDig _ d4)
          (by rw [hrec]; omega) (by rw [hrec]; omega)), ih]
      rw [show Char.ofNat (c.toNat / 4096 % 16 * 4096 + c.toNat / 256 % 16 * 256 +
        c.toNat / 16 % 16 * 16 + c.toNat % 16) = c by rw [hrec, Char.ofNat_toNat]]
      rfl
    · have hlt : c.toNat < 1114112 := char_toNat_lt c
      have hge : 65536 ≤ c.toNat := by omega
      have hqlt : (c.toNat - 65536) / 1024 < 1024 := by omega
      have hrlt : (c.toNat - 65536) % 1024 < 1024 := Nat.mod_lt _ (by omega)
      have he : escChar c = '\\' :: 'u' :: hex4 (55296 + (c.toNat - 65536) / 1024) ++
          '\\' :: 'u' :: hex4 (56320 + (c.toNat - 65536) % 1024) := by
        simp [escChar, hq, hbs, h8, h9, h10, h12, h13, hpr, hbmp]
      set hi := 55296 + (c.toNat - 65536) / 1024 with hhi
      set lo := 56320 + (c.toNat - 65536) % 1024 with hlo
      have dh1 : hi / 4096 % 16 < 16 := by omega
      have dh2 : hi / 256 % 16 < 16 := by omega
      have dh3 : hi / 16 % 16 < 16 := by omega
      have dh4 : hi % 16 < 16 := by omega
      have dl1 : lo / 4096 % 16 < 16 := by omega
      have dl2 : lo / 256 % 16 < 16 := by omega
      have dl3 : lo / 16 % 16 < 16 := by omega
      have dl4 : lo % 16 < 16 := by omega
      have hrec1 : hi / 4096 % 16 * 4096 + hi / 256 % 16 * 256 + hi / 16 % 16 * 16 +
          hi % 16 = hi := by omega
      have hrec2 : lo / 4096 % 16 * 4096 + lo / 256 % 16 * 256 + lo / 16 % 16 * 16 +
          lo % 16 = lo := by omega
      have hcomb : 65536 + (hi - 55296) * 1024 + (lo - 56320) = c.toNat := by omega
      rw [he, hex4, hex4]
      rw [show ('\\' :: 'u' :: [hexDig (hi / 4096 % 16), hexDig (hi / 256 % 16),
          hexDig (hi / 16 % 16), hexDig (hi % 16)] ++
          '\\' :: 'u' :: [hexDig (lo / 4096 % 16), hexDig (lo / 256 % 16),
          hexDig (lo / 16 % 16), hexDig (lo % 16)]) ++ (cs.flatMap escChar ++ '"' :: r) =
          '\\' :: ('u' :: hexDig (hi / 4096 % 16) :: hexDig (hi / 256 % 16) ::
          hexDig (hi / 16 % 16) :: hexDig (hi % 16) ::
          '\\' :: 'u' :: hexDig (lo / 4096 % 16) :: hexDig (lo / 256 % 16) ::
          hexDig (lo / 16 % 16) :: hexDig (lo % 16) :: (cs.flatMap escChar ++ '"' :: r)) by
        simp]
      rw [pjs_esc1 _ _ (scanEsc_u_pair _ _ _ _ _ _ _ _ _ _ _ _ _ _ _ _ _
        (hexVal_hexDig _ dh1) (hexVal_hexDig _ dh2) (hexVal_hexDig _ dh3)
        (hexVal_hexDig _ dh4) (hexVal_hexDig _ dl1) (hexVal_hexDig _ dl2)
        (hexVal_hexDig _ dl3) (hexVal_hexDig _ dl4)
        (by rw [hrec1]; omega) (by rw [hrec2]; omega)), ih]
      rw [show Char.ofNat (65536 + (hi / 4096 % 16 * 4096 + hi / 256 % 16 * 256 +
        hi / 16 % 16 * 16 + hi % 16 - 55296) * 1024 +
        (lo / 4096 % 16 * 4096 + lo / 256 % 16 * 256 + lo / 16 % 16 * 16 +
        lo % 16 - 56320)) = c by rw [hrec1, hrec2, hcomb, Char.ofNat_toNat]]
      rfl

theorem jsonLoadsCreds_canonical (u p : String) (l : List Char)
    (hl : l = "\x7b\"username\": \"".data ++ (u.data.flatMap escChar ++ '"' ::
      (", \"password\": \"".data ++ (p.data.flatMap escChar ++ '"' :: ['\x7d'])))) :
    jsonLoadsCreds ⟨l⟩ = some (u, p) := by
  subst hl
  simp only [jsonLoadsCreds, expectLit_append, parseJStringBody_esc]
  rfl

theorem jsonLoadsCreds_jsonDumps (u p : String) :
    jsonLoadsCreds (jsonDumps u p) = some (u, p) := by
  have hA : ("\x7b\"username\": \"".data : List Char) =
      "\x7b\"username\": ".data ++ ['"'] := by decide
  have hB : ((", \"password\": \"".data : List Char)) =
      ", \"password\": ".data ++ ['"'] := by decide
  have hC : (("\x7d".data : List Char)) = ['\x7d'] := by decide
  have hE : ("\x7b\"username\": ".data ++ encJStr u ++ ", \"password\": ".data ++
      encJStr p ++ "\x7d".data : List Char) =
      "\x7b\"username\": \"".data ++ (u.data.flatMap escChar ++ '"' ::
        (", \"password\": \"".data ++ (p.data.flatMap escChar ++ '"' :: ['\x7d']))) := by
    rw [hA, hB, hC, encJStr, encJStr]
    simp [List.append_assoc, List.cons_append, List.singleton_append]
  exact jsonLoadsCreds_canonical u p _ hE

/-! ### PBKDF2 and `generate_encryption_key` -/

/-- Bytewise XOR, the accumulator operation of RFC 2898's function `F`. -/
def xorBytes (a b : List Nat) : List Nat :=
  List.zipWith Nat.xor a b

/-- Big-endian four-byte block index `INT(i)` of RFC 2898. -/
def int32be (i : Nat) : List Nat :=
  [i / 16777216 % 256, i / 65536 % 256, i / 256 % 256, i % 256]

/-- Remaining `c` PRF iterations of RFC 2898's function `F`, with current
value `u` and running XOR `acc`. -/
def pbkdf2Iter (prf : List Nat → List Nat → List Nat) (pw : List Nat) :
    List Nat → List Nat → Nat → List Nat
  | _, acc, 0 => acc
  | u, acc, j + 1 =>
    let u' := prf pw u
    pbkdf2Iter prf pw u' (xorBytes acc u') j

/-- Block function `F(P, S, c, i)` of RFC 2898. -/
def pbkdf2F (prf : List Nat → List Nat → List Nat) (pw salt : List Nat)
    (c i : Nat) : List Nat :=
  if c = 0 then []
  else
    let u1 := prf pw (salt ++ int32be i)
    pbkdf2Iter prf pw u1 u1 (c - 1)

/-- PBKDF2 (RFC 2898) with pseudorandom function `prf` of output length
`hLen`: concatenate `⌈dkLen/hLen⌉` blocks and truncate to `dkLen`. -/
def pbkdf2 (prf : List Nat → List Nat → List Nat) (hLen : Nat)
    (pw salt : List Nat) (c dkLen : Nat) : List Nat :=
  (((List.range ((dkLen + hLen - 1) / hLen)).flatMap
    fun i => pbkdf2F prf pw salt c (i + 1))).take dkLen

/-- Model of `generate_encryption_key`: PBKDF2 with HMAC-SHA256 (the
abstract `prf`, output length 32), the hard-coded salt
`b'smb_tool_salt_2024'`, 100000 iterations and a 32-byte key, re-encoded
with URL-safe base64.  The source wraps the key string in `Fernet(key)`;
the model returns the key string, which the `AEScheme` operations
consume. -/
def generate_encryption_key (prf : List Nat → List Nat → List Nat)
    (password : String) : String :=
  urlsafe_b64encode
    (pbkdf2 prf 32 (strEncode password) (strEncode "smb_tool_salt_2024") 100000 32)

theorem pbkdf2Iter_length (prf : List Nat → List Nat → List Nat) (pw : List Nat)
    (hp : ∀ k m, (prf k m).length = 32) :
    ∀ j u acc, acc.length = 32 → (pbkdf2Iter prf pw u acc j).length = 32 := by
  intro j
  induction j with
  | zero => intro u acc h; simpa [pbkdf2Iter]
  | succ j ih =>
    intro u acc h
    simp only [pbkdf2Iter]
    apply ih
    simp [xorBytes, List.length_zipWith, h, hp]

theorem pbkdf2_len32 (prf : List Nat → List Nat → List Nat) (pw salt : List Nat)
    (hp : ∀ k m, (prf k m).length = 32) :
    (pbkdf2 prf 32 pw salt 100000 32).length = 32 := by
  have h1 : (32 + 32 - 1) / 32 = 1 := by norm_num
  have hr : List.range 1 = [0] := rfl
  simp only [pbkdf2, h1, hr, List.flatMap_cons, List.flatMap_nil, List.append_nil,
    Nat.zero_add]
  have h2 : (pbkdf2F prf pw salt 100000 1).length = 32 := by
    simp only [pbkdf2F]
    rw [if_neg (by norm_num)]
    exact pbkdf2Iter_length prf pw hp _ _ _ (hp _ _)
  simp [List.length_take, h2]

/-! ### The Fernet primitive and the credential vault -/

/-- Contract of the Fernet authenticated-encryption primitive from the
`cryptography` package, which is external to this repository.  `encrypt`
takes the (base64) key string, a nonce standing for the random IV and the
embedded timestamp, and the plaintext; `decrypt` takes the key and a
token.  The fields state Fernet's documented guarantees: the token is a
byte string, decryption under the same key recovers the plaintext,
decryption under any other key fails the integrity check (`InvalidToken`),
and tokens produced with distinct IV/timestamp values differ. -/
structure AEScheme where
  encrypt : String → Nat → List Nat → List Nat
  decrypt : String → List Nat → Option (List Nat)
  enc_bytes : ∀ k n m, ∀ b ∈ encrypt k n m, b < 256
  round_trip : ∀ k n m, decrypt k (encrypt k n m) = some m
  key_auth : ∀ k k' n m, k ≠ k' → decrypt k' (encrypt k n m) = none
  nonce_inj : ∀ k n n' m, n ≠ n' → encrypt k n m ≠ encrypt k n' m

/-- The Fernet token produced inside `encrypt_credentials`:
`cipher.encrypt(json.dumps(credentials).encode())`. -/
def fernet_token (S : AEScheme) (prf : List Nat → List Nat → List Nat)
    (nonce : Nat) (username password encryption_password : String) : List Nat :=
  S.encrypt (generate_encryption_key prf encryption_password) nonce
    (strEncode (jsonDumps username password))

/-- Model of `encrypt_credentials`: serialise the credential dict, encrypt
it, and URL-safe base64-encode the token.  The source returns `None` from
its `except` branch on a cipher fault; every operation of the model is
total, so the result is always `some`. -/
def encrypt_credentials (S : AEScheme) (prf : List Nat → List Nat → List Nat)
    (nonce : Nat) (username password encryption_password : String) : Option String :=
  some (urlsafe_b64encode (fernet_token S prf nonce username password encryption_password))

/-- Model of `decrypt_credentials`: base64-decode, Fernet-decrypt, decode
the plaintext bytes, parse the JSON and extract both fields; any failure
(the source's `except` branch, which returns `(None, None)`) is `none`. -/
def decrypt_credentials (S : AEScheme) (prf : List Nat → List Nat → List Nat)
    (encrypted_data encryption_password : String) : Option (String × String) :=
  match urlsafe_b64decode encrypted_data with
  | none => none
  | some encrypted_bytes =>
    match S.decrypt (generate_encryption_key prf encryption_password) encrypted_bytes with
    | none => none
    | some decrypted_data =>
      match strDecode decrypted_data with
      | none => none
      | some s => jsonLoadsCreds s

theorem decrypt_encrypt_core (S : AEScheme) (prf : List Nat → List Nat → List Nat)
    (n : Nat) (u p k : String) :
    decrypt_credentials S prf (urlsafe_b64encode (fernet_token S prf n u p k)) k
      = some (u, p) := by
  have hb : urlsafe_b64decode (urlsafe_b64encode (fernet_token S prf n u p k))
      = some (fernet_token S prf n u p k) :=
    urlsafe_b64decode_encode _ (S.enc_bytes _ _ _)
  have hd : S.decrypt (generate_encryption_key prf k) (fernet_token S prf n u p k)
      = some (strEncode (jsonDumps u p)) := S.round_trip _ _ _
  simp only [decrypt_credentials, hb, hd, strDecode_strEncode, jsonLoadsCreds_jsonDumps]

/-! ### A concrete instance of the `AEScheme` contract -/

/-- Unary framing of an unbounded natural: `n` ones, then a zero. -/
def unaryN (n : Nat) : List Nat :=
  List.replicate n 1 ++ [0]

def parseUnary : List Nat → Option (Nat × List Nat)
  | [] => none
  | b :: r =>
    if b = 0 then some (0, r)
    else if b = 1 then (parseUnary r).map fun q => (q.1 + 1, q.2)
    else none

theorem parseUnary_unary (n : Nat) (r : List Nat) :
    parseUnary (unaryN n ++ r) = some (n, r) := by
  induction n with
  | zero => simp [unaryN, parseUnary]
  | succ n ih =>
    have hstep : unaryN (n + 1) ++ r = 1 :: (unaryN n ++ r) := by
      simp [unaryN, List.replicate_succ]
    rw [hstep]
    simp [parseUnary, ih]

/-- Three-byte big-endian encoding of one character. -/
def chr3 (c : Char) : List Nat :=
  [c.toNat / 65536, c.toNat / 256 % 256, c.toNat % 256]

def parseChr3 : List Nat → Option (Char × List Nat)
  | a :: b :: d :: r =>
    if a * 65536 + b * 256 + d < 55296 ∨
        (57344 ≤ a * 65536 + b * 256 + d ∧ a * 65536 + b * 256 + d < 1114112) then
      some (Char.ofNat (a * 65536 + b * 256 + d), r)
    else none
  | _ => none

theorem parseChr3_chr3 (c : Char) (r : List Nat) :
    parseChr3 (chr3 c ++ r) = some (c, r) := by
  have hlt := char_toNat_lt c
  have hrec : c.toNat / 65536 * 65536 + c.toNat / 256 % 256 * 256 + c.toNat % 256
      = c.toNat := by omega
  have hval : c.toNat < 55296 ∨ (57344 ≤ c.toNat ∧ c.toNat < 1114112) := by
    rcases char_toNat_valid c with h | h
    · exact Or.inl h
    · exact Or.inr ⟨by omega, h.2⟩
  simp only [chr3, List.cons_append, List.nil_append, parseChr3, hrec]
  rw [if_pos hval, Char.ofNat_toNat]

def parseChars : Nat → List Nat → Option (List Char × List Nat)
  | 0, r => some ([], r)
  | k + 1, r =>
    match parseChr3 r with
    | some (c, r') => (parseChars k r').map fun q => (c :: q.1, q.2)
    | none => none

theorem parseChars_flat (cs : List Char) (r : List Nat) :
    parseChars cs.length (cs.flatMap chr3 ++ r) = some (cs, r) := by
  induction cs with
  | nil => simp [parseChars]
  | cons c cs ih =>
    simp [parseChars, List.flatMap_cons, List.append_assoc, parseChr3_chr3, ih]

/-- Length-prefixed encoding of a string for the concrete scheme. -/
def encStrT (s : String) : List Nat :=
  unaryN s.data.length ++ s.data.flatMap chr3

def parseStrT (l : List Nat) : Option (String × List Nat) :=
  match parseUnary l with
  | some (n, r) => (parseChars n r).map fun q => (⟨q.1⟩, q.2)
  | none => none

theorem parseStrT_encStrT (s : String) (r : List Nat) :
    parseStrT (encStrT s ++ r) = some (s, r) := by
  simp only [parseStrT, encStrT, List.append_assoc, parseUnary_unary, parseChars_flat,
    Option.map_some]
  rfl

/-- Length-prefixed encoding of a plaintext (a list of naturals). -/
def encMsgT (m : List Nat) : List Nat :=
  unaryN m.length ++ m.flatMap unaryN

def parseNats : Nat → List Nat → Option (List Nat × List Nat)
  | 0, r => some ([], r)
  | k + 1, r =>
    match parseUnary r with
    | some (x, r') => (parseNats k r').map fun q => (x :: q.1, q.2)
    | none => none

theorem parseNats_flat (m : List Nat) (r : List Nat) :
    parseNats m.length (m.flatMap unaryN ++ r) = some (m, r) := by
  induction m with
  | nil => simp [parseNats]
  | cons x m ih =>
    simp [parseNats, List.flatMap_cons, List.append_assoc, parseUnary_unary, ih]

def parseMsgT (l : List Nat) : Option (List Nat × List Nat) :=
  match parseUnary l with
  | some (n, r) => parseNats n r
  | none => none

theorem parseMsgT_encMsgT (m : List Nat) (r : List Nat) :
    parseMsgT (encMsgT m ++ r) = some (m, r) := by
  simp [parseMsgT, encMsgT, List.append_assoc, parseUnary_unary, parseNats_flat]

/-- Token of the concrete scheme: unary-framed nonce, length-prefixed key,
length-prefixed message. -/
def toyEncrypt (k : String) (n : Nat) (m : List Nat) : List Nat :=
  unaryN n ++ encStrT k ++ encMsgT m

/-- Decryption for the concrete scheme: parse the three components and
compare the embedded key with the supplied one. -/
def toyDecrypt (k' : String) (t : List Nat) : Option (List Nat) :=
  match parseUnary t with
  | none => none
  | some (_, r1) =>
    match parseStrT r1 with
    | none => none
    | some (k, r2) =>
      match parseMsgT r2 with
      | none => none
      | some (m, r3) => if r3 = [] ∧ k = k' then some m else none

theorem toyEncrypt_assoc (k : String) (n : Nat) (m : List Nat) :
    toyEncrypt k n m = unaryN n ++ (encStrT k ++ (encMsgT m ++ [])) := by
  simp [toyEncrypt, List.append_assoc]

theorem toyDecrypt_parse (k k' : String) (n : Nat) (m : List Nat) :
    toyDecrypt k' (toyEncrypt k n m) = if k = k' then some m else none := by
  have hm : parseMsgT (encMsgT m) = some (m, []) := by
    simpa using parseMsgT_encMsgT m []
  rw [toyEncrypt_assoc]
  simp [toyDecrypt, parseUnary_unary, parseStrT_encStrT, hm]

theorem unaryN_lt (n : Nat) : ∀ b ∈ unaryN n, b < 256 := by
  intro b hb
  rw [unaryN, List.mem_append] at hb
  rcases hb with hb | hb
  · have := List.eq_of_mem_replicate hb
    omega
  · simp only [List.mem_singleton] at hb
    omega

theorem chr3_lt (c : Char) : ∀ b ∈ chr3 c, b < 256 := by
  have := char_toNat_lt c
  intro b hb
  simp only [chr3, List.mem_cons, List.not_mem_nil, or_false] at hb
  rcases hb with rfl | rfl | rfl
  · omega
  · omega
  · omega

theorem toyEncrypt_bytes (k : String) (n : Nat) (m : List Nat) :
    ∀ b ∈ toyEncrypt k n m, b < 256 := by
  intro b hb
  rw [toyEncrypt] at hb
  rcases List.mem_append.1 hb with hb1 | hb1
  · rcases List.mem_append.1 hb1 with hb2 | hb2
    · exact unaryN_lt _ _ hb2
    · rw [encStrT] at hb2
      rcases List.mem_append.1 hb2 with hb3 | hb3
      · exact unaryN_lt _ _ hb3
      · rcases List.mem_flatMap.1 hb3 with ⟨c, -, hc⟩
        exact chr3_lt _ _ hc
  · rw [encMsgT] at hb1
    rcases List.mem_append.1 hb1 with hb2 | hb2
    · exact unaryN_lt _ _ hb2
    · rcases List.mem_flatMap.1 hb2 with ⟨x, -, hx⟩
      exact unaryN_lt _ _ hx

/-- The concrete scheme satisfies the whole Fernet contract. -/
def toyScheme : AEScheme where
  encrypt := toyEncrypt
  decrypt := toyDecrypt
  enc_bytes := toyEncrypt_bytes
  round_trip := by
    intro k n m
    rw [toyDecrypt_parse, if_pos rfl]
  key_auth := by
    intro k k' n m hne
    rw [toyDecrypt_parse, if_neg hne]
  nonce_inj := by
    intro k n n' m hne heq
    have h1 := parseUnary_unary n (encStrT k ++ (encMsgT m ++ []))
    have h2 := parseUnary_unary n' (encStrT k ++ (encMsgT m ++ []))
    rw [← toyEncrypt_assoc] at h1 h2
    rw [heq, h2] at h1
    injection h1 with hh
    exact hne (congrArg Prod.fst hh).symm

/-! ### The diagnostic/mount orchestrator -/

/-- Socket-level failures seen by `test_network_connectivity`: DNS
resolution failure (`socket.gaierror`), a timeout, or any other error. -/
inductive SockErr where
  | gaierror
  | timeout
  | other

/-- Environment supplying the platform effects: `subprocess.run` (the
`Except` error is a raised exception such as a timeout; otherwise return
code, stdout and stderr), `os.path.exists`, `os.getuid` / `os.getgid`, the
fresh name chosen by `tempfile.NamedTemporaryFile`, and the outcome of
`socket.connect_ex` per host and port. -/
structure SysEnv where
  run : List String → Except Unit (Nat × String × String)
  pathExists : String → Bool
  uid : Nat
  gid : Nat
  freshCred : String
  connectResult : String → Nat → Except SockErr Nat

/-- Model of `test_network_connectivity`: socket, 5-second timeout,
`connect_ex`, close; `true` exactly when the error indicator is zero;
`socket.gaierror` and every other exception yield `false`. -/
def test_network_connectivity (env : SysEnv) (host : String) (port : Nat) : Bool :=
  match env.connectResult host port with
  | .ok r => decide (r = 0)
  | .error _ => false

/-- Run an external command and report whether it returned zero; a raised
exception counts as failure. -/
def run_ok (env : SysEnv) (cmd : List String) : Bool :=
  match env.run cmd with
  | .ok (rc, _, _) => decide (rc = 0)
  | .error _ => false

/-- Model of `test_smb_connection`: the per-platform share-listing
command; unrecognised platforms return `false`. -/
def test_smb_connection (env : SysEnv) (os_type server : String) : Bool :=
  if os_type = "windows" then run_ok env ["net", "view", "\\\\" ++ server]
  else if os_type = "darwin" then run_ok env ["smbutil", "view", "//" ++ server]
  else if os_type = "linux" then run_ok env ["smbclient", "-L", server, "-N"]
  else false

/-- Test for the substring `RUNNING` in `sc query` output. -/
def hasRunning (out : String) : Bool :=
  decide ("RUNNING".data <:+: out.data)

/-- Whether one Windows service is reported running by `sc query`. -/
def winServiceRunning (env : SysEnv) (svc : String) : Bool :=
  match env.run ["sc", "query", svc] with
  | .ok (rc, out, _) => decide (rc = 0) && hasRunning out
  | .error _ => false

/-- The PowerShell feature query of `check_windows_features`. -/
def windowsFeatureQuery : String :=
  "Get-WindowsOptionalFeature -Online | Where-Object \x7b$_.FeatureName -like \"*SMB*\"\x7d | Select-Object FeatureName, State"

/-- Model of `check_windows_smb`: query both SMB services, list the SMB
features, succeed when any service is running.  Also returns the commands
invoked. -/
def check_windows_smb (env : SysEnv) : Bool × List (List String) :=
  (winServiceRunning env "LanmanServer" || winServiceRunning env "LanmanWorkstation",
   [["sc", "query", "LanmanServer"], ["sc", "query", "LanmanWorkstation"],
    ["powershell", "-Command", windowsFeatureQuery]])

/-- Model of `check_macos_smb`: `which smbutil` decides availability; the
`launchctl` service probe is informational only. -/
def check_macos_smb (env : SysEnv) : Bool × List (List String) :=
  (run_ok env ["which", "smbutil"],
   [["which", "smbutil"], ["launchctl", "list", "com.apple.smb.preferences"]])

/-- Model of `check_linux_smb`: the three `which` probes; success when at
least one tool is present. -/
def check_linux_smb (env : SysEnv) : Bool × List (List String) :=
  (run_ok env ["which", "smbclient"] || run_ok env ["which", "mount.cifs"] ||
     run_ok env ["which", "smbmount"],
   [["which", "smbclient"], ["which", "mount.cifs"], ["which", "smbmount"]])

/-- Model of `check_smb_tools`: platform dispatch; any other platform
reports failure without running any command. -/
def check_smb_tools (env : SysEnv) (os_type : String) : Bool × List (List String) :=
  if os_type = "windows" then check_windows_smb env
  else if os_type = "darwin" then check_macos_smb env
  else if os_type = "linux" then check_linux_smb env
  else (false, [])

/-- Outcome of a mount attempt: reported success, the external commands
invoked, and the resulting file set. -/
structure MountOut where
  ok : Bool
  cmds : List (List String)
  fs : List String

/-- Idempotent path creation (`os.makedirs(..., exist_ok=True)` and the
`tempfile` write). -/
def insertFile (n : String) (fs : List String) : List String :=
  if n ∈ fs then fs else fs ++ [n]

/-- `os.unlink` of the credentials file (wrapped in `except: pass`, so a
missing file is ignored). -/
def removeFile (n : String) (fs : List String) : List String :=
  fs.filter fun x => x != n

/-- The drive string `X:` for letter code `i`. -/
def driveStr (i : Nat) : String :=
  ⟨[Char.ofNat i, ':']⟩

/-- The drive root `X:\` whose existence marks the letter as used. -/
def driveRoot (i : Nat) : String :=
  ⟨[Char.ofNat i, ':', '\\']⟩

/-- `used_drives` of `mount_windows_smb`: letters `A:`..`Z:` whose root
path exists. -/
def used_drives (pe : String → Bool) : List String :=
  ((List.range 26).map (fun i => 65 + i)).filterMap fun i =>
    if pe (driveRoot i) then some (driveStr i) else none

/-- `available_drives`: letters from `Z:` down to `A:` not in
`used_drives`. -/
def available_drives (pe : String → Bool) : List String :=
  ((List.range 26).map (fun i => 90 - i)).filterMap fun i =>
    if driveStr i ∈ used_drives pe then none else some (driveStr i)

/-- Model of `mount_windows_smb`: pick the first available drive letter,
build the `net use` command and run it; with no available letter, fail
without running anything. -/
def mount_windows_smb (env : SysEnv) (server share username password : String)
    (fs : List String) : MountOut :=
  match available_drives env.pathExists with
  | [] => ⟨false, [], fs⟩
  | drive_letter :: _ =>
    let unc_path := "\\\\" ++ server ++ "\\" ++ share
    let cmd := ["net", "use", drive_letter, unc_path] ++
      (if username ≠ "" then ["/user:" ++ username, password] else [])
    ⟨run_ok env cmd, [cmd], fs⟩

/-- Model of `mount_macos_smb`: default mount point under `/Volumes`,
`os.makedirs`, credential-bearing URL, one `mount -t smbfs` command. -/
def mount_macos_smb (env : SysEnv) (server share username password mount_point : String)
    (fs : List String) : MountOut :=
  let mp := if mount_point = "" then "/Volumes/" ++ share else mount_point
  let fs1 := insertFile mp fs
  let smb_url :=
    if username ≠ "" ∧ password ≠ "" then
      "smb://" ++ username ++ ":" ++ password ++ "@" ++ server ++ "/" ++ share
    else "smb://" ++ server ++ "/" ++ share
  let cmd := ["mount", "-t", "smbfs", smb_url, mp]
  ⟨run_ok env cmd, [cmd], fs1⟩

/-- Model of `mount_linux_smb`: default mount point under `/mnt`,
`os.makedirs`, write the transient credentials file, run
`sudo mount -t cifs`, and delete the credentials file in the `finally`
block — on success, on failure, and when `subprocess.run` raises (the
`.error` case). -/
def mount_linux_smb (env : SysEnv) (server share username password mount_point : String)
    (fs : List String) : MountOut :=
  let mp := if mount_point = "" then "/mnt/" ++ share else mount_point
  let fs1 := insertFile mp fs
  let fs2 := insertFile env.freshCred fs1
  let cmd := ["sudo", "mount", "-t", "cifs", "//" ++ server ++ "/" ++ share, mp,
    "-o", "credentials=" ++ env.freshCred ++ ",uid=" ++ toString env.uid ++
      ",gid=" ++ toString env.gid]
  match env.run cmd with
  | .ok (rc, _, _) => ⟨decide (rc = 0), [cmd], removeFile env.freshCred fs2⟩
  | .error _ => ⟨false, [cmd], removeFile env.freshCred fs2⟩

/-- Model of `mount_smb_share`: platform dispatch; any other platform
returns failure without running any command. -/
def mount_smb_share (env : SysEnv) (os_type server share username password
    mount_point : String) (fs : List String) : MountOut :=
  if os_type = "windows" then mount_windows_smb env server share username password fs
  else if os_type = "darwin" then
    mount_macos_smb env server share username password mount_point fs
  else if os_type = "linux" then
    mount_linux_smb env server share username password mount_point fs
  else ⟨false, [], fs⟩

/-- Observable steps of the interactive mapping flow. -/
inductive Event where
  | connTest (host : String) (port : Nat)
  | smbTest (server : String)
  | promptCreds
  | encrypted
  | mountCall (server share : String)
deriving DecidableEq

/-- Model of `interactive_mapping`.  The string arguments are the
already-stripped operator inputs; `nonce` feeds the cipher's randomness.
Returns the reported success and the trace of observable steps: the
reachability test, the share-listing test (whose failure only warns), the
credential prompt, the optional encryption, and the mount invocation. -/
def interactive_mapping (S : AEScheme) (prf : List Nat → List Nat → List Nat)
    (env : SysEnv) (os_type server share username password encryption_password
    mount_point : String) (nonce : Nat) (fs : List String) : Bool × List Event :=
  if server = "" then (false, [])
  else if share = "" then (false, [])
  else if test_network_connectivity env server 445 = false then
    (false, [.connTest server 445])
  else
    let ev1 : List Event := [.connTest server 445, .smbTest server, .promptCreds]
    let mpArg := if os_type = "darwin" ∨ os_type = "linux" then mount_point else ""
    if username ≠ "" then
      match encrypt_credentials S prf nonce username password encryption_password with
      | some s =>
        if s = "" then (false, ev1)
        else
          ((mount_smb_share env os_type server share username password mpArg fs).ok,
           ev1 ++ [.encrypted, .mountCall server share])
      | none => (false, ev1)
    else
      ((mount_smb_share env os_type server share "" "" mpArg fs).ok,
       ev1 ++ [.mountCall server share])

theorem driveStr_inj26 : ∀ i < 26, ∀ j < 26, driveStr (65 + i) = driveStr (65 + j) → i = j := by
  decide

theorem mem_used_drives (pe : String → Bool) (x : Nat) (hx : x < 26) :
    (driveStr (65 + x) ∈ used_drives pe) ↔ pe (driveRoot (65 + x)) = true := by
  rw [used_drives]
  constructor
  · intro h
    rcases List.mem_filterMap.1 h with ⟨i, hi, hg⟩
    rcases List.mem_map.1 hi with ⟨y, hy, rfl⟩
    have hy26 : y < 26 := List.mem_range.1 hy
    split at hg
    · rename_i hpe
      injection hg with hg
      have : y = x := driveStr_inj26 y hy26 x hx hg
      subst this
      exact hpe
    · exact absurd hg (by simp)
  · intro hpe
    exact List.mem_filterMap.2 ⟨65 + x,
      List.mem_map.2 ⟨x, List.mem_range.2 hx, rfl⟩, by rw [if_pos hpe]⟩

theorem available_drives_all_used (pe : String → Bool)
    (h : ∀ x < 26, pe (driveRoot (65 + x)) = true) :
    available_drives pe = [] := by
  rw [available_drives, List.filterMap_eq_nil_iff]
  intro i hi
  rcases List.mem_map.1 hi with ⟨x, hx, rfl⟩
  have hx26 : x < 26 := List.mem_range.1 hx
  have he : 90 - x = 65 + (25 - x) := by omega
  rw [he, if_pos ((mem_used_drives pe (25 - x) (by omega)).2 (h (25 - x) (by omega)))]

theorem available_drives_first (pe : String → Bool) (x : Nat) (hx : x < 26)
    (hun : pe (driveRoot (65 + x)) = false)
    (habove : ∀ y, x < y → y < 26 → pe (driveRoot (65 + y)) = true) :
    ∃ rest, available_drives pe = driveStr (65 + x) :: rest := by
  have hsplit : (26 : Nat) = (25 - x) + (x + 1) := by omega
  rw [available_drives, hsplit, List.range_add, List.map_append, List.filterMap_append]
  have hA : (((List.range (25 - x)).map (fun i => 90 - i)).filterMap fun i =>
      if driveStr i ∈ used_drives pe then none else some (driveStr i)) = [] := by
    rw [List.filterMap_eq_nil_iff]
    intro i hi
    rcases List.mem_map.1 hi with ⟨y, hy, rfl⟩
    have hy26 : y < 26 - x - 1 + 1 := by
      have := List.mem_range.1 hy
      omega
    have he : 90 - y = 65 + (25 - y) := by
      have := List.mem_range.1 hy
      omega
    have hgt : x < 25 - y := by
      have := List.mem_range.1 hy
      omega
    rw [he, if_pos ((mem_used_drives pe (25 - y) (by omega)).2
      (habove (25 - y) hgt (by omega)))]
  rw [hA, List.nil_append, List.range_succ_eq_map, List.map_cons, List.map_cons,
    List.filterMap_cons]
  have he0 : 90 - (25 - x + 0) = 65 + x := by omega
  rw [he0, if_neg]
  · exact ⟨_, rfl⟩
  · rw [mem_used_drives pe x hx, hun]
    simp

/-! ### Helper lemmas for the file-set model -/

theorem not_mem_removeFile (n : String) (fs : List String) : n ∉ removeFile n fs := by
  intro h
  have := (List.mem_filter.1 h).2
  simp at this

theorem removeFile_insertFile_self (n : String) (fs : List String) (h : n ∉ fs) :
    removeFile n (insertFile n fs) = fs := by
  rw [insertFile, if_neg h, removeFile, List.filter_append]
  have h1 : fs.filter (fun x => x != n) = fs := by
    apply List.filter_eq_self.2
    intro x hx
    simp only [bne_iff_ne, ne_eq]
    exact fun he => h (he ▸ hx)
  have h2 : [n].filter (fun x => x != n) = [] := by simp
  rw [h1, h2, List.append_nil]

theorem mem_insertFile_iff (x m : String) (fs : List String) :
    x ∈ insertFile m fs ↔ x ∈ fs ∨ x = m := by
  rw [insertFile]
  split
  · rename_i hm
    constructor
    · exact Or.inl
    · rintro (h | rfl)
      · exact h
      · exact hm
  · simp [List.mem_append]

theorem mount_linux_smb_fs (env : SysEnv) (server share username password
    mount_point : String) (fs : List String) :
    (mount_linux_smb env server share username password mount_point fs).fs =
      removeFile env.freshCred (insertFile env.freshCred
        (insertFile (if mount_point = "" then "/mnt/" ++ share else mount_point) fs)) := by
  unfold mount_linux_smb
  dsimp only
  split <;> split <;> rfl

/-! ### Concrete environments and PRFs for the witnesses -/

/-- A benign environment: every command succeeds with empty output, no
path exists, connections succeed. -/
def trivialEnv : SysEnv where
  run := fun _ => .ok (0, "", "")
  pathExists := fun _ => false
  uid := 0
  gid := 0
  freshCred := "/tmp/tmp1234.cred"
  connectResult := fun _ _ => .ok 0

/-- Environment in which every drive root exists. -/
def allUsedEnv : SysEnv where
  run := fun _ => .ok (0, "", "")
  pathExists := fun _ => true
  uid := 0
  gid := 0
  freshCred := "/tmp/tmp1234.cred"
  connectResult := fun _ _ => .ok 0

/-- Environment whose name resolution fails. -/
def dnsFailEnv : SysEnv where
  run := fun _ => .ok (0, "", "")
  pathExists := fun _ => false
  uid := 0
  gid := 0
  freshCred := "/tmp/tmp1234.cred"
  connectResult := fun _ _ => .error .gaierror

/-- A constant pseudorandom function with 32-byte output, standing in for
HMAC-SHA256 in witnesses. -/
def zeroPrf : List Nat → List Nat → List Nat :=
  fun _ _ => List.replicate 32 0

theorem zeroPrf_len (key msg : List Nat) : (zeroPrf key msg).length = 32 :=
  List.length_replicate 32 0

/-! ### The claims -/

/-- C1: Round-trip — for every credential record with non-empty username,
password and passphrase, decrypting the token produced by
`encrypt_credentials` with the same passphrase returns exactly the
original record.  Quantified over every cipher satisfying the Fernet
contract, every PRF, and every nonce. -/
theorem C1_roundtrip (S : AEScheme) (prf : List Nat → List Nat → List Nat)
    (n : Nat) (u p k : String) (hu : u ≠ "") (hp : p ≠ "") (hk : k ≠ "")
    (t : String) (henc : encrypt_credentials S prf n u p k = some t) :
    decrypt_credentials S prf t k = some (u, p) := by
  have ht : t = urlsafe_b64encode (fernet_token S prf n u p k) := by
    simpa [encrypt_credentials] using henc.symm
  rw [ht]
  exact decrypt_encrypt_core S prf n u p k

/-- Witness for C1 at the spec's example record and passphrase. -/
theorem C1_roundtrip_witness :
    ("alice" : String) ≠ "" ∧ ("S3cret!" : String) ≠ "" ∧ ("hunter2" : String) ≠ "" ∧
    decrypt_credentials toyScheme zeroPrf
      (urlsafe_b64encode (fernet_token toyScheme zeroPrf 0 "alice" "S3cret!" "hunter2"))
      "hunter2" = some ("alice", "S3cret!") :=
  ⟨by decide, by decide, by decide,
   C1_roundtrip toyScheme zeroPrf 0 "alice" "S3cret!" "hunter2"
     (by decide) (by decide) (by decide) _ rfl⟩

/-- C10: the round trip holds beyond the spec's quantifier — also when the
username, the password and/or the passphrase is the empty string. -/
theorem C10_roundtrip_empty (S : AEScheme) (prf : List Nat → List Nat → List Nat)
    (n : Nat) (u p k : String) (t : String)
    (henc : encrypt_credentials S prf n u p k = some t) :
    decrypt_credentials S prf t k = some (u, p) := by
  have ht : t = urlsafe_b64encode (fernet_token S prf n u p k) := by
    simpa [encrypt_credentials] using henc.symm
  rw [ht]
  exact decrypt_encrypt_core S prf n u p k

/-- Witness for C10 with all three strings empty. -/
theorem C10_roundtrip_empty_witness :
    decrypt_credentials toyScheme zeroPrf
      (urlsafe_b64encode (fernet_token toyScheme zeroPrf 0 "" "" "")) ""
      = some ("", "") :=
  C10_roundtrip_empty toyScheme zeroPrf 0 "" "" "" _ rfl

/-- C2: decrypt failure classification — `decrypt_credentials` fails (the
source's caught-exception `(None, None)` branch, `none` here; the model is
total, so no other error can escape) exactly when the token is not valid
base64, or the authenticated decryption rejects the bytes (wrong passphrase
or corrupted token), or the decrypted payload is not valid structured data
with both fields. -/
theorem C2_decrypt_failure_classification (S : AEScheme)
    (prf : List Nat → List Nat → List Nat) (t k : String) :
    decrypt_credentials S prf t k = none ↔
      (urlsafe_b64decode t = none ∨
       (∃ bs, urlsafe_b64decode t = some bs ∧
         S.decrypt (generate_encryption_key prf k) bs = none) ∨
       (∃ bs pt, urlsafe_b64decode t = some bs ∧
         S.decrypt (generate_encryption_key prf k) bs = some pt ∧
         (strDecode pt = none ∨
          ∃ s, strDecode pt = some s ∧ jsonLoadsCreds s = none))) := by
  rcases hb : urlsafe_b64decode t with _ | bs
  · simp [decrypt_credentials, hb]
  · rcases hd : S.decrypt (generate_encryption_key prf k) bs with _ | pt
    · simp [decrypt_credentials, hb, hd]
    · rcases hs : strDecode pt with _ | s
      · simp [decrypt_credentials, hb, hd, hs]
      · rcases hj : jsonLoadsCreds s with _ | up
        · simp [decrypt_credentials, hb, hd, hs, hj]
        · simp [decrypt_credentials, hb, hd, hs, hj]

/-- Witness for C2: a non-base64 token is rejected. -/
theorem C2_decrypt_failure_witness :
    urlsafe_b64decode "%%%" = none ∧
    decrypt_credentials toyScheme zeroPrf "%%%" "pw" = none :=
  ⟨by decide,
   (C2_decrypt_failure_classification toyScheme zeroPrf "%%%" "pw").2
     (Or.inl (by decide))⟩

/-- C3: key derivation — `generate_encryption_key` is PBKDF2 with the PRF
(HMAC-SHA256), the fixed salt `smb_tool_salt_2024`, 100000 iterations and
32-byte output, re-encoded as URL-safe base64 (44 characters); two calls
with the same passphrase yield byte-identical key material. -/
theorem C3_key_derivation (prf : List Nat → List Nat → List Nat) (p p' : String)
    (hlen : ∀ key msg, (prf key msg).length = 32) (hpp : p = p') :
    generate_encryption_key prf p =
      urlsafe_b64encode (pbkdf2 prf 32 (strEncode p)
        (strEncode "smb_tool_salt_2024") 100000 32) ∧
    generate_encryption_key prf p = generate_encryption_key prf p' ∧
    (pbkdf2 prf 32 (strEncode p) (strEncode "smb_tool_salt_2024") 100000 32).length = 32 ∧
    (generate_encryption_key prf p).length = 44 := by
  subst hpp
  refine ⟨rfl, rfl, pbkdf2_len32 prf _ _ hlen, ?_⟩
  have hl : (urlsafe_b64encode (pbkdf2 prf 32 (strEncode p)
      (strEncode "smb_tool_salt_2024") 100000 32)).length
      = (b64EncodeBytes (pbkdf2 prf 32 (strEncode p)
        (strEncode "smb_tool_salt_2024") 100000 32)).length := rfl
  rw [generate_encryption_key, hl, length_b64EncodeBytes,
    pbkdf2_len32 prf _ _ hlen]

/-- Witness for C3 at a concrete PRF and the spec's example passphrase. -/
theorem C3_key_derivation_witness :
    (∀ key msg : List Nat, (zeroPrf key msg).length = 32) ∧
    (generate_encryption_key zeroPrf "hunter2").length = 44 :=
  ⟨zeroPrf_len,
   (C3_key_derivation zeroPrf "hunter2" "hunter2" zeroPrf_len rfl).2.2.2⟩

/-- C4: non-determinism with consistency — two calls to encrypt with the
same record and passphrase under distinct nonce (IV/timestamp) values
produce different tokens, and each token decrypts under the same
passphrase to the original record. -/
theorem C4_nondeterminism (S : AEScheme) (prf : List Nat → List Nat → List Nat)
    (n n' : Nat) (u p k : String) (hn : n ≠ n') (t t' : String)
    (h1 : encrypt_credentials S prf n u p k = some t)
    (h2 : encrypt_credentials S prf n' u p k = some t') :
    t ≠ t' ∧ decrypt_credentials S prf t k = some (u, p) ∧
      decrypt_credentials S prf t' k = some (u, p) := by
  have e1 : t = urlsafe_b64encode (fernet_token S prf n u p k) := by
    simpa [encrypt_credentials] using h1.symm
  have e2 : t' = urlsafe_b64encode (fernet_token S prf n' u p k) := by
    simpa [encrypt_credentials] using h2.symm
  refine ⟨?_, ?_, ?_⟩
  · intro he
    rw [e1, e2] at he
    have heq := urlsafe_b64encode_inj (S.enc_bytes _ _ _) (S.enc_bytes _ _ _) he
    exact S.nonce_inj _ _ _ _ hn heq
  · rw [e1]
    exact decrypt_encrypt_core S prf n u p k
  · rw [e2]
    exact decrypt_encrypt_core S prf n' u p k

/-- Witness for C4 at two concrete nonces. -/
theorem C4_nondeterminism_witness :
    (0 : Nat) ≠ 1 ∧
    urlsafe_b64encode (fernet_token toyScheme zeroPrf 0 "alice" "S3cret!" "hunter2") ≠
      urlsafe_b64encode (fernet_token toyScheme zeroPrf 1 "alice" "S3cret!" "hunter2") ∧
    decrypt_credentials toyScheme zeroPrf
      (urlsafe_b64encode (fernet_token toyScheme zeroPrf 0 "alice" "S3cret!" "hunter2"))
      "hunter2" = some ("alice", "S3cret!") :=
  ⟨by decide,
   (C4_nondeterminism toyScheme zeroPrf 0 1 "alice" "S3cret!" "hunter2" (by decide)
     _ _ rfl rfl).1,
   (C4_nondeterminism toyScheme zeroPrf 0 1 "alice" "S3cret!" "hunter2" (by decide)
     _ _ rfl rfl).2.1⟩

/-- C5: unsupported platform — when the OS identifier is none of windows,
darwin or linux, `check_smb_tools` reports failure and `mount_smb_share`
fails, both without invoking any external command and leaving the file set
untouched. -/
theorem C5_unsupported_platform (env : SysEnv) (os_type server share username
    password mount_point : String) (fs : List String)
    (hw : os_type ≠ "windows") (hd : os_type ≠ "darwin") (hl : os_type ≠ "linux") :
    check_smb_tools env os_type = (false, []) ∧
    mount_smb_share env os_type server share username password mount_point fs
      = ⟨false, [], fs⟩ := by
  constructor
  · rw [check_smb_tools, if_neg hw, if_neg hd, if_neg hl]
  · rw [mount_smb_share, if_neg hw, if_neg hd, if_neg hl]

/-- Witness for C5 on an unrecognised platform name. -/
theorem C5_unsupported_platform_witness :
    check_smb_tools trivialEnv "plan9" = (false, []) ∧
    mount_smb_share trivialEnv "plan9" "srv" "share" "" "" "" [] = ⟨false, [], []⟩ :=
  C5_unsupported_platform trivialEnv "plan9" "srv" "share" "" "" "" []
    (by decide) (by decide) (by decide)

/-- C6: scoped Linux credentials artifact — after `mount_linux_smb`
returns (command success, command failure, or a raised exception alike),
the transient credentials file no longer exists, and the file set is
exactly the one the mount outcome leaves otherwise (the created mount
point persists, nothing else changes). -/
theorem C6_linux_cred_scoped (env : SysEnv) (server share username password
    mount_point : String) (fs : List String)
    (hfresh : env.freshCred ∉ fs)
    (hmp : env.freshCred ≠ (if mount_point = "" then "/mnt/" ++ share else mount_point)) :
    env.freshCred ∉ (mount_linux_smb env server share username password mount_point fs).fs ∧
    (mount_linux_smb env server share username password mount_point fs).fs =
      insertFile (if mount_point = "" then "/mnt/" ++ share else mount_point) fs := by
  rw [mount_linux_smb_fs]
  constructor
  · exact not_mem_removeFile _ _
  · apply removeFile_insertFile_self
    intro hmem
    rcases (mem_insertFile_iff _ _ _).1 hmem with h | h
    · exact hfresh h
    · exact hmp h

/-- Witness for C6 at a concrete environment and empty file set. -/
theorem C6_linux_cred_scoped_witness :
    trivialEnv.freshCred ∉ ([] : List String) ∧
    trivialEnv.freshCred ≠ (if ("" : String) = "" then "/mnt/" ++ "share" else "") ∧
    trivialEnv.freshCred ∉ (mount_linux_smb trivialEnv "srv" "share" "u" "pw" "" []).fs ∧
    (mount_linux_smb trivialEnv "srv" "share" "u" "pw" "" []).fs =
      insertFile (if ("" : String) = "" then "/mnt/" ++ "share" else "") [] :=
  ⟨by decide, by decide,
   (C6_linux_cred_scoped trivialEnv "srv" "share" "u" "pw" "" []
     (by decide) (by decide)).1,
   (C6_linux_cred_scoped trivialEnv "srv" "share" "u" "pw" "" []
     (by decide) (by decide)).2⟩

/-- C7: interactive-flow severity ordering — with server and share
supplied, a failed TCP reachability check terminates the flow before the
credential prompt and before any mount attempt (the trace is exactly the
connectivity test), whereas a failed share-listing check leaves the flow
proceeding to the mount invocation. -/
theorem C7_severity_ordering (S : AEScheme) (prf : List Nat → List Nat → List Nat)
    (env : SysEnv) (os_type server share username password encryption_password
    mount_point : String) (nonce : Nat) (fs : List String)
    (hserver : server ≠ "") (hshare : share ≠ "") :
    (test_network_connectivity env server 445 = false →
      interactive_mapping S prf env os_type server share username password
        encryption_password mount_point nonce fs = (false, [.connTest server 445])) ∧
    (test_network_connectivity env server 445 = true →
      test_smb_connection env os_type server = false →
      (username = "" ∨ urlsafe_b64encode (fernet_token S prf nonce username password
        encryption_password) ≠ "") →
      Event.mountCall server share ∈ (interactive_mapping S prf env os_type server share
        username password encryption_password mount_point nonce fs).2) := by
  constructor
  · intro hconn
    rw [interactive_mapping, if_neg hserver, if_neg hshare, if_pos hconn]
  · intro hconn hsmb hcred
    rw [interactive_mapping, if_neg hserver, if_neg hshare,
      if_neg (by rw [hconn]; simp)]
    dsimp only
    by_cases hu : username = ""
    · rw [if_neg (by simp [hu])]
      simp
    · rw [if_pos hu]
      rcases hcred with hcred | hcred
      · exact absurd hcred hu
      · simp only [encrypt_credentials]
        rw [if_neg hcred]
        simp

/-- Witness for C7: anonymous mapping on a platform whose share listing
fails, with reachable server. -/
theorem C7_severity_ordering_witness :
    ("srv" : String) ≠ "" ∧ ("share" : String) ≠ "" ∧
    test_network_connectivity trivialEnv "srv" 445 = true ∧
    test_smb_connection trivialEnv "plan9" "srv" = false ∧
    Event.mountCall "srv" "share" ∈ (interactive_mapping toyScheme zeroPrf trivialEnv
      "plan9" "srv" "share" "" "" "" "" 0 []).2 :=
  ⟨by decide, by decide, by decide, by decide,
   (C7_severity_ordering toyScheme zeroPrf trivialEnv "plan9" "srv" "share" "" "" "" ""
     0 [] (by decide) (by decide)).2 (by decide) (by decide) (Or.inl rfl)⟩

/-- C8: Windows drive-letter selection — with every drive root existing,
`mount_windows_smb` fails without invoking any command; otherwise it maps
the UNC path with a single `net use` command on the first unused letter
scanning from `Z:` down to `A:` (the chosen letter is unused and every
letter above it is used). -/
theorem C8_windows_drive_selection (env : SysEnv) (server share username
    password : String) (fs : List String) :
    ((∀ x < 26, env.pathExists (driveRoot (65 + x)) = true) →
      mount_windows_smb env server share username password fs = ⟨false, [], fs⟩) ∧
    (∀ x < 26, env.pathExists (driveRoot (65 + x)) = false →
      (∀ y, x < y → y < 26 → env.pathExists (driveRoot (65 + y)) = true) →
      (mount_windows_smb env server share username password fs).cmds =
        [["net", "use", driveStr (65 + x), "\\\\" ++ server ++ "\\" ++ share] ++
          (if username ≠ "" then ["/user:" ++ username, password] else [])]) := by
  constructor
  · intro hall
    rw [mount_windows_smb, available_drives_all_used env.pathExists hall]
  · intro x hx hun habove
    obtain ⟨rest, hav⟩ := available_drives_first env.pathExists x hx hun habove
    rw [mount_windows_smb, hav]

/-- Witness for C8: the all-used case fails without commands, and with no
drive in use the selection takes `Z:` (code 90). -/
theorem C8_windows_drive_selection_witness :
    (∀ x < 26, allUsedEnv.pathExists (driveRoot (65 + x)) = true) ∧
    mount_windows_smb allUsedEnv "srv" "share" "" "" [] = ⟨false, [], []⟩ ∧
    (mount_windows_smb trivialEnv "srv" "share" "" "" []).cmds =
      [["net", "use", driveStr (65 + 25), "\\\\" ++ "srv" ++ "\\" ++ "share"] ++
        (if ("" : String) ≠ "" then ["/user:" ++ "", ""] else [])] :=
  ⟨by decide,
   (C8_windows_drive_selection allUsedEnv "srv" "share" "" "" []).1 (by decide),
   (C8_windows_drive_selection trivialEnv "srv" "share" "" "" []).2 25 (by decide)
     (by decide) (by intro y h1 h2; omega)⟩

/-- C9: totality of the reachability check — `test_network_connectivity`
always returns a boolean; DNS failure, timeout, refusal and every other
socket error yield `false`, and it returns `true` exactly when
`connect_ex` reports zero. -/
theorem C9_connectivity_total (env : SysEnv) (host : String) (port : Nat) :
    (test_network_connectivity env host port = true ∨
     test_network_connectivity env host port = false) ∧
    (∀ e, env.connectResult host port = .error e →
      test_network_connectivity env host port = false) ∧
    (∀ r, env.connectResult host port = .ok r → r ≠ 0 →
      test_network_connectivity env host port = false) ∧
    (test_network_connectivity env host port = true ↔
      env.connectResult host port = .ok 0) := by
  refine ⟨?_, ?_, ?_, ?_⟩
  · cases test_network_connectivity env host port
    · exact Or.inr rfl
    · exact Or.inl rfl
  · intro e he
    simp [test_network_connectivity, he]
  · intro r hr hne
    simp [test_network_connectivity, hr, hne]
  · constructor
    · intro h
      rcases hc : env.connectResult host port with e | r
      · simp [test_network_connectivity, hc] at h
      · simp only [test_network_connectivity, hc, decide_eq_true_eq] at h
        rw [h]
    · intro h
      simp [test_network_connectivity, h]

/-- Witness for C9: a DNS failure yields `false`. -/
theorem C9_connectivity_total_witness :
    dnsFailEnv.connectResult "srv" 445 = .error SockErr.gaierror ∧
    test_network_connectivity dnsFailEnv "srv" 445 = false :=
  ⟨rfl, (C9_connectivity_total dnsFailEnv "srv" 445).2.1 SockErr.gaierror rfl⟩
